import Mathlib

/-!
Verification development for the sicknessTracker front-end.

The two verified cores are

* the calendar grid builder of `src/components/YearHeatmap.js`
  (`toDateKey`, `startOfYearUtc`, `startOfNextYearUtc`, `dayDiffUtc`,
  and the `weeks` / `monthLayout` computation), and
* the entry reconciliation layer of the application module
  (`normalizeEntry`, `isValidDateKey`, the `entryMap` lookup, `onSubmit`,
  `commitSave` and the per-year fetch effect).

JavaScript `Date` objects at UTC midnight are embedded as natural numbers:
the number of days since 0000-01-01 in the proleptic Gregorian calendar
(the calendar implemented by ECMAScript UTC date arithmetic).
0000-01-01 was a Saturday, so `getUTCDay` is `(n + 6) % 7`.
-/

/-- Leap-year predicate of the Gregorian calendar, the rule ECMAScript
`Date.UTC` arithmetic implements. -/
def isLeapYear (y : Nat) : Bool :=
  (y % 4 == 0 && y % 100 != 0) || y % 400 == 0

/-- Number of days of year `y`. -/
def daysInYear (y : Nat) : Nat :=
  if isLeapYear y then 366 else 365

/-- Days from 0000-01-01 to the Jan 1 of year `y`; day-number of
`Date.UTC(y, 0, 1)`.  Closed Gregorian form: `365y` plus the leap years in
`[0, y)` counted by the 4/100/400 rules; `daysBeforeYear (y+1) =
daysBeforeYear y + daysInYear y` is proved below. -/
def daysBeforeYear (y : Nat) : Nat :=
  365 * y + (y + 3) / 4 - (y + 99) / 100 + (y + 399) / 400

/-- Source `startOfYearUtc(year)`: `new Date(Date.UTC(year, 0, 1))`. -/
def startOfYearUtc (year : Nat) : Nat := daysBeforeYear year

/-- Source `startOfNextYearUtc(year)`: `new Date(Date.UTC(year + 1, 0, 1))`. -/
def startOfNextYearUtc (year : Nat) : Nat := daysBeforeYear (year + 1)

/-- Source `dayDiffUtc(a, b)`: `Math.floor((b.getTime() - a.getTime()) / 86400000)`.
Both arguments are UTC midnights, so the quotient is exact; every call site
has `a ≤ b`, matching Nat subtraction. -/
def dayDiffUtc (a b : Nat) : Nat := b - a

/-- Source method `date.getUTCDay()` (0 = Sunday) for a day-number: 0000-01-01 was a Saturday. -/
def getUTCDay (n : Nat) : Nat := (n + 6) % 7

/-- Month lengths January..December for a (non-)leap year. -/
def monthLengths (leap : Bool) : List Nat :=
  [31, if leap then 29 else 28, 31, 30, 31, 30, 31, 31, 30, 31, 30, 31]

/-- Days of year `y` that precede month `m` (0-based month). -/
def daysBeforeMonth (y m : Nat) : Nat :=
  ((monthLengths (isLeapYear y)).take m).sum

/-- Constructor `Date.UTC(y, m, d)` as a day-number, for the shapes the source uses:
`0 ≤ m ≤ 11` and `d ≥ 1`, where a `d` past the end of the month spills into
the following days exactly as ECMAScript normalisation does (the source only
overflows in month 0, where this is day-of-year arithmetic). -/
def dateUTC (y m d : Nat) : Nat :=
  daysBeforeYear y + daysBeforeMonth y m + (d - 1)

/-- Find the `(year, dayOfYear)` of a day-number, scanning years from `y` with
explicit fuel (the fuel is structural; `yearDoy` supplies enough of it). -/
def yearDoyAux : Nat → Nat → Nat → Nat × Nat
  | 0, y, n => (y, n)
  | fuel + 1, y, n =>
    if n < daysInYear y then (y, n) else yearDoyAux fuel (y + 1) (n - daysInYear y)

/-- The pair `(getUTCFullYear, dayOfYear)` of a day-number.  The scan starts at
`n / 366`, a lower bound of the target year, so only a handful of steps
remain; correctness over the scan is proved below. -/
def yearDoy (n : Nat) : Nat × Nat :=
  yearDoyAux (n + 1) (n / 366) (n - daysBeforeYear (n / 366))

/-- Walk the month-length table: from a day-of-year produce
`(0-based month, 1-based day of month)`. -/
def monthDayAux : List Nat → Nat → Nat → Nat × Nat
  | [], m, doy => (m, doy + 1)
  | len :: rest, m, doy =>
    if doy < len then (m, doy + 1) else monthDayAux rest (m + 1) (doy - len)

/-- The triple `(getUTCFullYear, getUTCMonth, getUTCDate)` of a day-number
(month 0-based, day 1-based, as in ECMAScript). -/
def civilOfDay (n : Nat) : Nat × Nat × Nat :=
  let p := yearDoy n
  let md := monthDayAux (monthLengths (isLeapYear p.1)) 0 p.2
  (p.1, md.1, md.2)

/-- Source `String(x).padStart(2, '0')`: `toString x` already has two or more
digits when `10 ≤ x`, so only one-digit numbers get a leading zero. -/
def pad2 (n : Nat) : String :=
  if n < 10 then "0" ++ toString n else toString n

/-- Source `toDateKey(date)` (identical in `YearHeatmap.js` and the app module):
`y-MM-DD` from the UTC calendar fields. -/
def toDateKey (n : Nat) : String :=
  let c := civilOfDay n
  toString c.1 ++ "-" ++ pad2 (c.2.1 + 1) ++ "-" ++ pad2 c.2.2

/-- Month label text, `toLocaleString('en-US', { month: 'short' })`. -/
def monthName (m : Nat) : String :=
  [ "Jan", "Feb", "Mar", "Apr", "May", "Jun",
    "Jul", "Aug", "Sep", "Oct", "Nov", "Dec"].getD m ""

/-! ## JavaScript values

The reconciliation layer manipulates untyped JSON-ish values.  `JSVal`
embeds the primitive values the code can observe; numbers are restricted to
integers (all numbers the tracker produces or tests are integral), with `nan`
as a separate constructor. -/

inductive JSVal where
  | undef
  | null
  | bool (b : Bool)
  | num (n : Int)
  | nan
  | str (s : String)
deriving DecidableEq

/-- JavaScript truthiness. -/
def jsTruthy : JSVal → Bool
  | .undef => false
  | .null => false
  | .bool b => b
  | .num n => n != 0
  | .nan => false
  | .str s => s != ""

/-- Disjunction `a || b` of JavaScript values. -/
def jsOr (a b : JSVal) : JSVal := if jsTruthy a then a else b

/-- Value of a digit character. -/
def digitVal (c : Char) : Nat := c.toNat - 48

/-- Value of a digit string. -/
def natOfDigits (cs : List Char) : Nat :=
  cs.foldl (fun a c => a * 10 + digitVal c) 0

/-- Source `isValidDateKey`'s regular expression `^\d{4}-\d{2}-\d{2}$`
on a string (shape only; it does not check calendar ranges). -/
def keyShape (s : String) : Bool :=
  match s.data with
  | [y1, y2, y3, y4, h1, m1, m2, h2, d1, d2] =>
    y1.isDigit && y2.isDigit && y3.isDigit && y4.isDigit && h1 == '-' &&
    m1.isDigit && m2.isDigit && h2 == '-' && d1.isDigit && d2.isDigit
  | _ => false

/-- Source `isValidDateKey(value)`:
`typeof value === 'string' && /^\d{4}-\d{2}-\d{2}$/.test(value)`. -/
def isValidDateKey : JSVal → Bool
  | .str s => keyShape s
  | _ => false

/-- Coercion `Number(v)` on the value shapes the tracker feeds it.  Strings are
modelled for optionally signed decimal-integer contents (the only numeric
strings the tracker's data can carry); other strings give `nan`. -/
def jsToNumber : JSVal → JSVal
  | .undef => .nan
  | .null => .num 0
  | .bool b => .num (if b then 1 else 0)
  | .num n => .num n
  | .nan => .nan
  | .str s =>
    let t := s.trim
    if t = "" then .num 0
    else match t.data with
      | '-' :: rest =>
        if rest ≠ [] ∧ rest.all Char.isDigit then .num (-(natOfDigits rest : Int)) else .nan
      | cs => if cs.all Char.isDigit then .num (natOfDigits cs) else .nan

/-- Parse `new Date(s)` for an ISO `YYYY-MM-DD` string: the UTC day it denotes, or
`none` for an invalid date.  Out-of-range month/day components give an
invalid date, per the ECMAScript date-time string format.  Other string
formats are engine-dependent and are modelled as invalid; the tracker's own
data only ever parses ISO strings. -/
def parseIsoDate (s : String) : Option Nat :=
  match s.data with
  | [y1, y2, y3, y4, h1, mc1, mc2, h2, dc1, dc2] =>
    if y1.isDigit && y2.isDigit && y3.isDigit && y4.isDigit && h1 == '-' &&
       mc1.isDigit && mc2.isDigit && h2 == '-' && dc1.isDigit && dc2.isDigit then
      let y := natOfDigits [y1, y2, y3, y4]
      let m := natOfDigits [mc1, mc2]
      let d := natOfDigits [dc1, dc2]
      if 1 ≤ m && m ≤ 12 && 1 ≤ d && d ≤ (monthLengths (isLeapYear y)).getD (m - 1) 0 then
        some (dateUTC y (m - 1) d)
      else none
    else none
  | _ => none

/-- Parse `new Date(v)` followed by the `getTime()` NaN check: the UTC day-number of
the resulting instant, or `none` for an invalid date.  A number is an
epoch-milliseconds offset (days before year 0 are outside the model). -/
def parseJsDate : JSVal → Option Nat
  | .num n =>
    let t : Int := (daysBeforeYear 1970 : Int) * 86400000 + n
    if 0 ≤ t then some ((t / 86400000).toNat) else none
  | .bool _ =>
    some (daysBeforeYear 1970)
  | .str s => parseIsoDate s
  | _ => none

/-! ## Entries and normalization -/

/-- A normalized entry, the output shape of `normalizeEntry`. -/
structure Entry where
  id : JSVal
  date : JSVal
  dateKey : String
  isSick : Bool
  severity : JSVal
deriving DecidableEq

/-- The fields `normalizeEntry` reads off a raw object; a field the payload
does not carry is `undef`. -/
structure RawObj where
  id : JSVal
  oid : JSVal
  date : JSVal
  dateKey : JSVal
  isSick : JSVal
  severity : JSVal
deriving DecidableEq

/-- A raw value handed to `normalizeEntry`: either a non-object primitive
(`typeof raw !== 'object'`, or a falsy `raw`) or an object. -/
inductive RawVal where
  | prim (v : JSVal)
  | obj (o : RawObj)
deriving DecidableEq

/-- Is `v` a strict boolean (`typeof v === 'boolean'`)? -/
def isBoolVal : JSVal → Bool
  | .bool _ => true
  | _ => false

/-- The string under a `str` value (total helper; only read under an
`isValidDateKey` guard, which forces the `str` case). -/
def keyStringOf : JSVal → String
  | .str s => s
  | _ => ""

/-- The boolean under a `bool` value (total helper; only read under an
`isBoolVal` guard). -/
def boolValOf : JSVal → Bool
  | .bool b => b
  | _ => false

/-- Source `normalizeEntry(raw)`.  `RawObj.oid` plays the part of the `_id`
field.  The guard mirrors the source line
`if (!isValidDateKey(dateKey) || typeof raw.isSick !== 'boolean') return null`.
The function is total: the "never throws" half of its contract is inherent
in the embedding. -/
def normalizeEntry (raw : RawVal) : Option Entry :=
  match raw with
  | .prim _ => none
  | .obj o =>
    let dateKey1 :=
      if !isValidDateKey o.dateKey && jsTruthy o.date then
        match parseJsDate o.date with
        | some day => JSVal.str (toDateKey day)
        | none => o.dateKey
      else o.dateKey
    if isValidDateKey dateKey1 && isBoolVal o.isSick then
      some { id := jsOr o.id (jsOr o.oid JSVal.null),
             date := o.date,
             dateKey := keyStringOf dateKey1,
             isSick := boolValOf o.isSick,
             severity :=
               if boolValOf o.isSick then jsToNumber (jsOr o.severity (JSVal.num 1))
               else JSVal.null }
    else none

/-- Source `parseDateFromKey(dateKey)`:
`const [y, m, d] = dateKey.split('-').map(Number)` then `Date.UTC(y, m-1, d)`.
For the canonical `YYYY-MM-DD` keys it is fed, `split('-')` produces exactly
the three fixed-width slices taken here. -/
def parseDateFromKey (s : String) : Nat :=
  dateUTC (natOfDigits (s.data.take 4))
    (natOfDigits ((s.data.drop 5).take 2) - 1)
    (natOfDigits ((s.data.drop 8).take 2))

/-- Serialisation `date.toISOString()` of a UTC-midnight day-number (the source only
serialises such instants; the four-digit year padding of `toISOString` is
elided, as every key the form can produce has a four-digit year). -/
def toISOStringOfDay (n : Nat) : String :=
  toDateKey n ++ "T00:00:00.000Z"

/-! ## The calendar grid builder (`YearHeatmap.js`) -/

/-- One non-empty cell of the heatmap: `{ date, dateKey, entry }`. -/
structure DaySlot where
  date : Nat
  dateKey : String
  entry : Option Entry
deriving DecidableEq

/-- One week column: seven slots, an index, and the month-break flag. -/
structure WeekColumn where
  index : Nat
  days : List (Option DaySlot)
  monthBreakBefore : Bool
deriving DecidableEq

/-- One month label record of `monthLayout`. -/
structure MonthLabel where
  label : String
  startWeek : Nat
  spanWeeks : Nat
deriving DecidableEq

/-- The grid: `{ weeks, monthLayout }`. -/
structure YearGrid where
  weeks : List WeekColumn
  monthLayout : List MonthLabel
deriving DecidableEq

/-- The `entriesByKey` map of `YearHeatmap`: `map[entry.dateKey] = entry` over
the list in order, so a later entry wins; reading `map[k] || null`. -/
def entriesByKey (entries : List Entry) (k : String) : Option Entry :=
  entries.foldl (fun acc e => if e.dateKey == k then some e else acc) none

/-- Source `weekCount = Math.ceil(totalCells / 7)` where
`totalCells = offset + totalDays`. -/
def weekCountOf (year : Nat) : Nat :=
  (getUTCDay (startOfYearUtc year) +
    dayDiffUtc (startOfYearUtc year) (startOfNextYearUtc year) + 6) / 7

/-- The slot at flat cell index `flatIndex` of the grid for `year`:
`dayIndex = flatIndex - offset`; out-of-range day indices are empty slots,
in-range ones carry `Date.UTC(year, 0, 1 + dayIndex)`, its key, and the
entry looked up by key. -/
def dayCell (year : Nat) (entries : List Entry) (flatIndex : Nat) : Option DaySlot :=
  let jan1 := startOfYearUtc year
  let totalDays := dayDiffUtc jan1 (startOfNextYearUtc year)
  let offset := getUTCDay jan1
  if flatIndex < offset ∨ totalDays ≤ flatIndex - offset then none
  else
    let date := dateUTC year 0 (1 + (flatIndex - offset))
    some { date := date, dateKey := toDateKey date,
           entry := entriesByKey entries (toDateKey date) }

/-- The `monthLayoutData` record for month `m` (0-based):
start uses `Math.floor`, end uses `Math.ceil`, and December ends at
`startOfNextYearUtc`. -/
def monthLabelOf (year m : Nat) : MonthLabel :=
  let jan1 := startOfYearUtc year
  let offset := getUTCDay jan1
  let monthStart := dateUTC year m 1
  let monthEnd := if m == 11 then startOfNextYearUtc year else dateUTC year (m + 1) 1
  let startFlat := offset + dayDiffUtc jan1 monthStart
  let endFlatExclusive := offset + dayDiffUtc jan1 monthEnd
  let startWeek := startFlat / 7
  let endWeek := (endFlatExclusive + 6) / 7
  { label := monthName m, startWeek := startWeek,
    spanWeeks := max 1 (endWeek - startWeek) }

/-- The `monthStarts` set: start weeks of the twelve months, kept only when
positive (`if (startWeek > 0) monthStarts.add(startWeek)`). -/
def monthStartWeeks (year : Nat) : List Nat :=
  ((List.range 12).map (fun m => (monthLabelOf year m).startWeek)).filter (fun w => 0 < w)

/-- The grid computation of `YearHeatmap` for `(year, entries)`. -/
def buildYearGrid (year : Nat) (entries : List Entry) : YearGrid :=
  { weeks :=
      (List.range (weekCountOf year)).map (fun w =>
        { index := w,
          days := (List.range 7).map (fun d => dayCell year entries (w * 7 + d)),
          monthBreakBefore := (monthStartWeeks year).contains w }),
    monthLayout := (List.range 12).map (monthLabelOf year) }

/-- The guard of the `entryMap` `useMemo`: an entry is placed in the map when
its key is well-shaped and its leading four digits (`Number(dateKey.slice(0, 4))`)
equal the selected year. -/
def inSelectedYear (selectedYear : Nat) (e : Entry) : Bool :=
  keyShape e.dateKey && (natOfDigits (e.dateKey.data.take 4) == selectedYear)

/-- Lookup `entryMap[k]` after the `useMemo` has filled the map over `entries` in
order: the last list entry passing the guard with key `k`, else `undefined`.
(The map carries no other observable state.) -/
def entryMapLookup (entries : List Entry) (selectedYear : Nat) (k : String) : Option Entry :=
  entries.foldl
    (fun acc e => if inSelectedYear selectedYear e && e.dateKey == k then some e else acc)
    none

/-- The payload `onSubmit` builds. -/
structure SavePayload where
  date : String
  isSick : Bool
  severity : JSVal
deriving DecidableEq

/-- Outcome of `onSubmit`: open the update-confirmation modal
(`setUpdatePreview({existing, next, dateKey})`), or commit immediately. -/
inductive SubmitResult where
  | confirm (existing : Entry) (next : SavePayload) (dateKey : String)
  | save (payload : SavePayload)
deriving DecidableEq

/-- Source `onSubmit`: build the payload, look the key up in `entryMap`,
branch on existence. -/
def onSubmitModel (formDate : Nat) (isSick : Bool) (severity : JSVal)
    (entries : List Entry) (selectedYear : Nat) : SubmitResult :=
  let dateKey := toDateKey formDate
  let payload : SavePayload :=
    { date := toISOStringOfDay (parseDateFromKey dateKey),
      isSick := isSick,
      severity := if isSick then jsToNumber severity else JSVal.null }
  match entryMapLookup entries selectedYear dateKey with
  | some existing => .confirm existing payload dateKey
  | none => .save payload

/-- The comparator key of `commitSave`'s sort:
`new Date(entry.date).getTime()`, `none` for an invalid date. -/
def entryTime (e : Entry) : Option Nat := parseJsDate e.date

/-- The sort order `(a, b) => new Date(a.date).getTime() - new Date(b.date).getTime()`.
A NaN comparator value makes the ECMAScript sort order implementation-defined;
the model deterministically places entries with invalid dates first.  The
theorems below only use the comparator on entries with valid dates, where the
order is exactly the ascending date order of the source. -/
def entryLeb (a b : Entry) : Bool :=
  match entryTime a, entryTime b with
  | some x, some y => x ≤ y
  | none, _ => true
  | some _, none => false

/-- Relation form of `entryLeb`, for `List.insertionSort`. -/
def entryLe (a b : Entry) : Prop := entryLeb a b = true

instance : DecidableRel entryLe :=
  fun a b => inferInstanceAs (Decidable (entryLeb a b = true))

/-- The merge step of `commitSave`: drop entries with the saved key, append
the saved entry, re-sort ascending by date.  `Array.prototype.sort` is a
stable comparator sort, which `List.insertionSort` is. -/
def mergeEntry (prev : List Entry) (saved : Entry) : List Entry :=
  List.insertionSort entryLe ((prev.filter (fun e => e.dateKey != saved.dateKey)) ++ [saved])

/-- Result of the `saveEntry` round trip as `commitSave` observes it:
a thrown transport error with its message, or a response `{ entry }`. -/
inductive SaveOutcome where
  | fail (msg : String)
  | ok (entry : RawVal)
deriving DecidableEq

/-- Source `commitSave`, as a function from the previous entries and the
round-trip outcome to the next entries and the surfaced error
(`err.message || 'Failed to save entry'`); a response whose entry does not
normalize throws before any state is touched. -/
def commitSaveModel (prev : List Entry) (outcome : SaveOutcome) :
    List Entry × Option String :=
  match outcome with
  | .fail msg => (prev, some (if msg == "" then "Failed to save entry" else msg))
  | .ok raw =>
    match normalizeEntry raw with
    | none => (prev, some "Invalid entry returned by server.")
    | some saved => (mergeEntry prev saved, none)

/-- The per-year fetch effect: on success the response entries are
normalized and malformed ones dropped; on failure the collection is reset to
empty and the error surfaced (`err.message || 'Failed to load entries'`). -/
def fetchEffectModel (result : Except String (List RawVal)) :
    List Entry × Option String :=
  match result with
  | .error msg => ([], some (if msg == "" then "Failed to load entries" else msg))
  | .ok raws => (raws.filterMap normalizeEntry, none)

/-- Fallback record for `List.getD` on the month layout. -/
def defMonthLabel : MonthLabel := { label := "", startWeek := 0, spanWeeks := 0 }

/-- The pairwise-disjointness of month spans the specification claims. -/
def monthSpansDisjoint (y : Nat) : Prop :=
  ∀ i j, i < 12 → j < 12 → i ≠ j → ∀ w,
    (((buildYearGrid y []).monthLayout.getD i defMonthLabel).startWeek ≤ w ∧
     w < ((buildYearGrid y []).monthLayout.getD i defMonthLabel).startWeek +
         ((buildYearGrid y []).monthLayout.getD i defMonthLabel).spanWeeks) →
    ¬ (((buildYearGrid y []).monthLayout.getD j defMonthLabel).startWeek ≤ w ∧
       w < ((buildYearGrid y []).monthLayout.getD j defMonthLabel).startWeek +
           ((buildYearGrid y []).monthLayout.getD j defMonthLabel).spanWeeks)

/-- Does parsing the value as a date yield a valid date key?  This is the
C6 claim's literal reading of "parsing raw.date yields a valid date key":
parse unconditionally, then shape-test the derived key. -/
def parseYieldsValidKey (v : JSVal) : Bool :=
  match parseJsDate v with
  | some day => keyShape (toDateKey day)
  | none => false

/-- Does the fallback branch of the source supply a valid key?  Unlike
`parseYieldsValidKey` alone, the source consults the parse only when the
date field is present and truthy (`if (!isValidDateKey(dateKey) && raw.date)`). -/
def fallbackKeyOk (o : RawObj) : Bool :=
  jsTruthy o.date && parseYieldsValidKey o.date

/-- The malformedness predicate of the C6 claim as written: not an object,
or `isSick` not a strict boolean, or neither the `dateKey` field matching
the canonical pattern nor parsing the `date` field yields a valid date key
— with no truthiness guard on the date field. -/
def malformedRawPlain : RawVal → Bool
  | .prim _ => true
  | .obj o => !isBoolVal o.isSick || (!isValidDateKey o.dateKey && !parseYieldsValidKey o.date)

/-- The amended malformedness predicate: as `malformedRawPlain`, but the
fallback parse counts only when the date field is truthy, exactly as the
source guards it. -/
def malformedRaw : RawVal → Bool
  | .prim _ => true
  | .obj o => !isBoolVal o.isSick || (!isValidDateKey o.dateKey && !fallbackKeyOk o)

/-- Raw object with an invalid key and a falsy but parseable date field:
the number 0 denotes the epoch, whose key 1970-01-01 is valid. -/
def rawObjFalsyDate : RawObj :=
  { id := .undef, oid := .undef, date := .num 0, dateKey := .undef,
    isSick := .bool true, severity := .undef }

/-- Raw server entry used by the C7 witness. -/
def rawObjSick3 : RawObj :=
  { id := .undef, oid := .undef, date := .undef, dateKey := .str "2024-03-05",
    isSick := .bool true, severity := .num 3 }

/-- Normalized form of `rawObjSick3`. -/
def entrySick3 : Entry :=
  { id := JSVal.null, date := JSVal.undef, dateKey := "2024-03-05",
    isSick := true, severity := JSVal.num 3 }

/-- The severity invariant the C8 claim asserts for every in-memory entry. -/
def sevInvariantB (e : Entry) : Bool :=
  if e.isSick then
    match e.severity with
    | JSVal.num n => decide (1 ≤ n) && decide (n ≤ 5)
    | _ => false
  else e.severity == JSVal.null

/-- Raw server entry with out-of-range severity 7. -/
def rawObjSick7 : RawObj :=
  { id := .undef, oid := .undef, date := .undef, dateKey := .str "2024-03-05",
    isSick := .bool true, severity := .num 7 }

/-- Raw server entry with a valid key and no date field. -/
def rawObjNoDate : RawObj :=
  { id := .undef, oid := .undef, date := .undef, dateKey := .str "2024-03-05",
    isSick := .bool true, severity := .undef }

/-- The entry sitting in the collection for the C4 witness. -/
def entryJan2024 : Entry :=
  { id := JSVal.null, date := JSVal.str "2024-01-01", dateKey := "2024-01-01",
    isSick := false, severity := JSVal.null }

instance : IsTotal Entry entryLe :=
  ⟨by
    intro a b
    unfold entryLe entryLeb entryTime
    cases parseJsDate a.date <;> cases parseJsDate b.date <;> (try simp) <;> omega⟩

instance : IsTrans Entry entryLe :=
  ⟨by
    intro a b c hab hbc
    unfold entryLe entryLeb entryTime at hab hbc ⊢
    cases ha : parseJsDate a.date <;> cases hb : parseJsDate b.date <;>
      cases hc : parseJsDate c.date <;> rw [ha, hb] at hab <;> rw [hb, hc] at hbc <;>
        (try simp_all) <;> omega⟩

/-- Raw server entry used by the C3 witness. -/
def rawObjK2 : RawVal :=
  .obj { id := .undef, oid := .undef, date := .str "1000-01-02",
         dateKey := .str "1000-01-02", isSick := .bool true, severity := .num 2 }

/-- Normalized form of `rawObjK2`. -/
def entryK2 : Entry :=
  { id := JSVal.null, date := JSVal.str "1000-01-02", dateKey := "1000-01-02",
    isSick := true, severity := JSVal.num 2 }

/-- Prior collection entry used by the C3 witness. -/
def entryK5 : Entry :=
  { id := JSVal.null, date := JSVal.str "1000-01-05", dateKey := "1000-01-05",
    isSick := false, severity := JSVal.null }

/-! ## Calendar lemmas -/

theorem div_step_4 (y : Nat) :
    (y + 1 + 3) / 4 = (y + 3) / 4 + (if y % 4 = 0 then 1 else 0) := by
  by_cases h : y % 4 = 0 <;> simp [h] <;> omega

theorem div_step_100 (y : Nat) :
    (y + 1 + 99) / 100 = (y + 99) / 100 + (if y % 100 = 0 then 1 else 0) := by
  by_cases h : y % 100 = 0 <;> simp [h] <;> omega

theorem div_step_400 (y : Nat) :
    (y + 1 + 399) / 400 = (y + 399) / 400 + (if y % 400 = 0 then 1 else 0) := by
  by_cases h : y % 400 = 0 <;> simp [h] <;> omega

theorem daysBeforeYear_succ (y : Nat) :
    daysBeforeYear (y + 1) = daysBeforeYear y + daysInYear y := by
  have h4 := div_step_4 y
  have h100 := div_step_100 y
  have h400 := div_step_400 y
  have hge : (y + 99) / 100 ≤ (y + 3) / 4 := by omega
  unfold daysBeforeYear daysInYear isLeapYear
  rw [h4, h100, h400]
  by_cases ha : y % 4 = 0 <;> by_cases hb : y % 100 = 0 <;> by_cases hc : y % 400 = 0 <;>
    simp [ha, hb, hc] <;> omega

theorem totalDays_eq (y : Nat) :
    dayDiffUtc (startOfYearUtc y) (startOfNextYearUtc y) = daysInYear y := by
  unfold dayDiffUtc startOfYearUtc startOfNextYearUtc
  rw [daysBeforeYear_succ]; omega

theorem getUTCDay_lt (n : Nat) : getUTCDay n < 7 := Nat.mod_lt _ (by omega)

/-! ## Counting helpers -/

/-- A day slot is non-empty exactly on the flat indices of the year's days. -/
theorem dayCell_isSome (y : Nat) (es : List Entry) (i : Nat) :
    (dayCell y es i).isSome
      = (decide (getUTCDay (startOfYearUtc y) ≤ i) &&
         decide (i < getUTCDay (startOfYearUtc y) + daysInYear y)) := by
  simp only [dayCell, totalDays_eq]
  split
  · next h => simp; omega
  · next h => simp; omega

/-! ## Decomposing `toDateKey` -/

theorem monthLengths_sum (b : Bool) : (monthLengths b).sum = if b then 366 else 365 := by
  cases b <;> rfl

theorem monthLengths_length (b : Bool) : (monthLengths b).length = 12 := by
  cases b <;> rfl

theorem monthLengths_ge28 : ∀ b, ∀ x ∈ monthLengths b, 28 ≤ x := by decide

theorem monthLengths_sum_eq (y : Nat) : (monthLengths (isLeapYear y)).sum = daysInYear y := by
  rw [monthLengths_sum]
  unfold daysInYear
  rfl

theorem daysBeforeMonth_zero (y : Nat) : daysBeforeMonth y 0 = 0 := rfl

theorem daysBeforeMonth_twelve (y : Nat) : daysBeforeMonth y 12 = daysInYear y := by
  unfold daysBeforeMonth
  rw [show (12 : Nat) = (monthLengths (isLeapYear y)).length from (monthLengths_length _).symm,
    List.take_length, monthLengths_sum_eq]

theorem daysBeforeMonth_step (y : Nat) : ∀ m, m < 12 →
    daysBeforeMonth y m + 28 ≤ daysBeforeMonth y (m + 1) ∧
    daysBeforeMonth y (m + 1) ≤ daysBeforeMonth y m + 31 := by
  intro m hm
  unfold daysBeforeMonth
  cases hb : isLeapYear y <;> interval_cases m <;> decide

theorem dayDiff_monthStart (y m : Nat) :
    dayDiffUtc (startOfYearUtc y) (dateUTC y m 1) = daysBeforeMonth y m := by
  unfold dayDiffUtc dateUTC startOfYearUtc
  omega

theorem dayDiff_monthEnd (y : Nat) (m : Nat) (hm : m < 12) :
    dayDiffUtc (startOfYearUtc y)
        (if m == 11 then startOfNextYearUtc y else dateUTC y (m + 1) 1)
      = daysBeforeMonth y (m + 1) := by
  by_cases h11 : m = 11
  · subst h11
    have hc : ((11 : Nat) == 11) = true := rfl
    rw [if_pos hc, totalDays_eq, show (11 + 1 : Nat) = 12 from rfl, daysBeforeMonth_twelve]
  · rw [if_neg (by simp [h11]), dayDiff_monthStart]

theorem monthLabelOf_fields (y : Nat) : ∀ m, m < 12 →
    (monthLabelOf y m).startWeek = (getUTCDay (startOfYearUtc y) + daysBeforeMonth y m) / 7 ∧
    (monthLabelOf y m).startWeek + (monthLabelOf y m).spanWeeks
      = (getUTCDay (startOfYearUtc y) + daysBeforeMonth y (m + 1) + 6) / 7 := by
  intro m hm
  have hstep := daysBeforeMonth_step y m hm
  have h1 : (monthLabelOf y m).startWeek
      = (getUTCDay (startOfYearUtc y) + daysBeforeMonth y m) / 7 := by
    simp only [monthLabelOf]
    rw [dayDiff_monthStart]
  have h2 : (monthLabelOf y m).spanWeeks
      = max 1 ((getUTCDay (startOfYearUtc y) + daysBeforeMonth y (m + 1) + 6) / 7
          - (getUTCDay (startOfYearUtc y) + daysBeforeMonth y m) / 7) := by
    simp only [monthLabelOf]
    rw [dayDiff_monthEnd y m hm, dayDiff_monthStart]
  refine ⟨h1, ?_⟩
  rw [h1, h2]
  omega

theorem monthLayout_getD (y m : Nat) (hm : m < 12) :
    (buildYearGrid y []).monthLayout.getD m defMonthLabel = monthLabelOf y m := by
  unfold buildYearGrid
  simp only [List.getD]
  rw [List.get?_map, List.get?_range hm]
  rfl

theorem monthCover (y : Nat) : ∀ m, m ≤ 11 → ∀ w,
    w < (getUTCDay (startOfYearUtc y) + daysBeforeMonth y (m + 1) + 6) / 7 →
    ∃ j, j ≤ m ∧ (getUTCDay (startOfYearUtc y) + daysBeforeMonth y j) / 7 ≤ w ∧
         w < (getUTCDay (startOfYearUtc y) + daysBeforeMonth y (j + 1) + 6) / 7 := by
  intro m
  induction m with
  | zero =>
    intro _ w hw
    refine ⟨0, Nat.le_refl _, ?_, hw⟩
    have hoff := getUTCDay_lt (startOfYearUtc y)
    rw [daysBeforeMonth_zero]
    omega
  | succ m ih =>
    intro hm w hw
    rcases Nat.lt_or_ge w ((getUTCDay (startOfYearUtc y) + daysBeforeMonth y (m + 1) + 6) / 7)
      with h | h
    · obtain ⟨j, hj, h1, h2⟩ := ih (by omega) w h
      exact ⟨j, by omega, h1, h2⟩
    · exact ⟨m + 1, Nat.le_refl _, by omega, hw⟩

/-- C5 (amended). The twelve month spans are monotone; each consecutive pair
abuts or overlaps in exactly one week column (`startWeek (m+1)` is `endWeek m`
or `endWeek m - 1`, the latter whenever the month boundary falls mid-week);
and together the spans cover every week column holding at least one real day
of the year. -/
theorem monthLayout_spans (y : Nat) :
    (buildYearGrid y []).monthLayout.length = 12 ∧
    (∀ m, m + 1 < 12 →
      ((buildYearGrid y []).monthLayout.getD m defMonthLabel).startWeek
        ≤ ((buildYearGrid y []).monthLayout.getD (m + 1) defMonthLabel).startWeek ∧
      ((buildYearGrid y []).monthLayout.getD (m + 1) defMonthLabel).startWeek
        ≤ ((buildYearGrid y []).monthLayout.getD m defMonthLabel).startWeek +
          ((buildYearGrid y []).monthLayout.getD m defMonthLabel).spanWeeks ∧
      ((buildYearGrid y []).monthLayout.getD m defMonthLabel).startWeek +
          ((buildYearGrid y []).monthLayout.getD m defMonthLabel).spanWeeks
        ≤ ((buildYearGrid y []).monthLayout.getD (m + 1) defMonthLabel).startWeek + 1) ∧
    (∀ w, (∃ d, d < 7 ∧ (dayCell y [] (w * 7 + d)).isSome = true) →
      ∃ m, m < 12 ∧
        ((buildYearGrid y []).monthLayout.getD m defMonthLabel).startWeek ≤ w ∧
        w < ((buildYearGrid y []).monthLayout.getD m defMonthLabel).startWeek +
            ((buildYearGrid y []).monthLayout.getD m defMonthLabel).spanWeeks) := by
  refine ⟨by simp [buildYearGrid], ?_, ?_⟩
  · intro m hm
    have hf1 := monthLabelOf_fields y m (by omega)
    have hf2 := monthLabelOf_fields y (m + 1) (by omega)
    have hstep := daysBeforeMonth_step y m (by omega)
    rw [monthLayout_getD y m (by omega), monthLayout_getD y (m + 1) (by omega)]
    omega
  · intro w hw
    obtain ⟨d, hd7, hds⟩ := hw
    rw [dayCell_isSome y [] (w * 7 + d)] at hds
    simp only [Bool.and_eq_true, decide_eq_true_eq] at hds
    have hcov : w < (getUTCDay (startOfYearUtc y) + daysBeforeMonth y 12 + 6) / 7 := by
      rw [daysBeforeMonth_twelve]
      omega
    obtain ⟨j, hj, h1, h2⟩ := monthCover y 11 (Nat.le_refl _) w hcov
    have hf := monthLabelOf_fields y j (by omega)
    refine ⟨j, by omega, ?_, ?_⟩
    · rw [monthLayout_getD y j (by omega)]
      omega
    · rw [monthLayout_getD y j (by omega)]
      omega

set_option maxRecDepth 4000 in
/-- Counterexample to C5 as stated: in 2024 the January span is weeks 0–4
(`startWeek 0`, `spanWeeks 5`) while February starts at week 4, so week
column 4 lies in both spans and the spans are not disjoint. -/
theorem monthLayout_not_disjoint_2024 : ¬ monthSpansDisjoint 2024 := by
  intro h
  exact h 0 1 (by decide) (by decide) (by decide) 4 (by decide) (by decide)

/-- C6 (amended). `normalizeEntry` (a total function: it cannot throw)
returns `null` exactly when the raw value is not an object, `isSick` is not
a strict boolean, or neither the `dateKey` field nor the guarded fallback —
which parses the `date` field only when that field is truthy — yields a
valid date key. -/
theorem normalizeEntry_none_iff (r : RawVal) :
    (normalizeEntry r).isNone = malformedRaw r := by
  cases r with
  | prim v => rfl
  | obj o =>
    simp only [normalizeEntry, malformedRaw, fallbackKeyOk, parseYieldsValidKey]
    by_cases hvk : isValidDateKey o.dateKey = true
    · simp only [hvk, Bool.not_true, Bool.false_and, Bool.false_and, if_false]
      cases hsb : isBoolVal o.isSick <;> simp [hvk, hsb]
    · have hvk' : isValidDateKey o.dateKey = false := by
        simpa using hvk
      by_cases ht : jsTruthy o.date = true
      · simp only [hvk', Bool.not_false, Bool.true_and, ht, if_true]
        cases hp : parseJsDate o.date with
        | none => cases hsb : isBoolVal o.isSick <;> simp [hvk', hsb]
        | some day =>
          cases hks : keyShape (toDateKey day) <;>
            cases hsb : isBoolVal o.isSick <;>
              simp [isValidDateKey, hks, hsb]
      · have ht' : jsTruthy o.date = false := by
          simpa using ht
        simp only [hvk', Bool.not_false, Bool.true_and, ht', if_false]
        cases hsb : isBoolVal o.isSick <;> simp [hvk', hsb]

/-- Counterexample to C6 as stated: with an invalid `dateKey`, a falsy but
parseable `date` field (the number 0 — `new Date(0)` is the epoch, whose
derived key 1970-01-01 is valid) and a strict-boolean `isSick`, parsing
`raw.date` does yield a valid date key, so the claim's predicate calls the
input well-formed; yet `normalizeEntry` returns null, because the source
consults the fallback only when the date field is truthy. -/
theorem normalizeEntry_none_iff_cex :
    (normalizeEntry (.obj rawObjFalsyDate)).isNone = true ∧
    malformedRawPlain (.obj rawObjFalsyDate) = false := by decide

/-- C7. For accepted raw entries the output severity is
`Number(raw.severity || 1)` when sick and exactly `null` when not sick. -/
theorem normalizeEntry_severity (o : RawObj) (e : Entry)
    (h : normalizeEntry (.obj o) = some e) :
    (e.isSick = true → e.severity = jsToNumber (jsOr o.severity (JSVal.num 1))) ∧
    (e.isSick = false → e.severity = JSVal.null) := by
  simp only [normalizeEntry] at h
  split at h
  · split at h
    · have he := Option.some.inj h
      subst he
      constructor
      · intro hb
        change boolValOf o.isSick = true at hb
        show (if boolValOf o.isSick = true then jsToNumber (jsOr o.severity (JSVal.num 1))
              else JSVal.null) = jsToNumber (jsOr o.severity (JSVal.num 1))
        rw [if_pos hb]
      · intro hb
        change boolValOf o.isSick = false at hb
        show (if boolValOf o.isSick = true then jsToNumber (jsOr o.severity (JSVal.num 1))
              else JSVal.null) = JSVal.null
        rw [hb]
        simp
    · exact absurd h (by simp)
  · split at h
    · have he := Option.some.inj h
      subst he
      constructor
      · intro hb
        change boolValOf o.isSick = true at hb
        show (if boolValOf o.isSick = true then jsToNumber (jsOr o.severity (JSVal.num 1))
              else JSVal.null) = jsToNumber (jsOr o.severity (JSVal.num 1))
        rw [if_pos hb]
      · intro hb
        change boolValOf o.isSick = false at hb
        show (if boolValOf o.isSick = true then jsToNumber (jsOr o.severity (JSVal.num 1))
              else JSVal.null) = JSVal.null
        rw [hb]
        simp
    · exact absurd h (by simp)

/-- Witness for the C7 theorem on a concrete sick entry with severity 3. -/
theorem normalizeEntry_severity_witness :
    normalizeEntry (.obj rawObjSick3) = some entrySick3 ∧
    ((entrySick3.isSick = true →
        entrySick3.severity = jsToNumber (jsOr rawObjSick3.severity (JSVal.num 1))) ∧
     (entrySick3.isSick = false → entrySick3.severity = JSVal.null)) :=
  ⟨by decide, normalizeEntry_severity rawObjSick3 entrySick3 (by decide)⟩

/-- Counterexample to C8 as stated: `normalizeEntry` accepts a sick entry
with severity 7 and passes the 7 through unclamped, so its output violates
the severity-in-1..5 invariant. -/
theorem normalizeEntry_sev_out_of_range :
    (normalizeEntry (.obj rawObjSick7)).map sevInvariantB = some false := by decide

/-- C8 (amended).  Every non-null output of `normalizeEntry` has `null`
severity when not sick; when sick the severity is `Number(raw.severity || 1)`:
1 when the raw severity is absent or falsy, and the raw number itself
otherwise — within 1–5 exactly when the input was, with no clamping of
out-of-range inputs. -/
theorem normalizeEntry_sev_amended (o : RawObj) (e : Entry)
    (h : normalizeEntry (.obj o) = some e) :
    (e.isSick = false → e.severity = JSVal.null) ∧
    (e.isSick = true →
      (jsTruthy o.severity = false → e.severity = JSVal.num 1) ∧
      (∀ n : Int, n ≠ 0 → o.severity = JSVal.num n → e.severity = JSVal.num n)) := by
  have hc := normalizeEntry_severity o e h
  refine ⟨hc.2, fun hb => ⟨fun hf => ?_, fun n hn ho => ?_⟩⟩
  · rw [hc.1 hb]
    unfold jsOr
    rw [hf]
    simp [jsToNumber]
  · rw [hc.1 hb]
    unfold jsOr
    rw [ho]
    have ht : jsTruthy (JSVal.num n) = true := by
      simp [jsTruthy]
      exact hn
    rw [ht]
    simp [jsToNumber]

/-- Witness for the amended C8 theorem. -/
theorem normalizeEntry_sev_amended_witness :
    normalizeEntry (.obj rawObjSick3) = some entrySick3 ∧
    ((entrySick3.isSick = false → entrySick3.severity = JSVal.null) ∧
     (entrySick3.isSick = true →
       (jsTruthy rawObjSick3.severity = false → entrySick3.severity = JSVal.num 1) ∧
       (∀ n : Int, n ≠ 0 → rawObjSick3.severity = JSVal.num n →
         entrySick3.severity = JSVal.num n))) :=
  ⟨by decide, normalizeEntry_sev_amended rawObjSick3 entrySick3 (by decide)⟩

/-- C10.  A raw object with a well-shaped `dateKey`, a strict-boolean
`isSick`, and no `date` field normalizes to a non-null entry whose `date`
field is the raw date unchanged — `undefined` — so the entry carries no date
value for the merge step's sort comparator. -/
theorem normalizeEntry_no_date_field (o : RawObj) (b : Bool)
    (h1 : isValidDateKey o.dateKey = true) (h2 : o.date = JSVal.undef)
    (h3 : o.isSick = JSVal.bool b) :
    (normalizeEntry (.obj o)).map (fun e => e.date) = some JSVal.undef ∧
    (normalizeEntry (.obj o)).map (fun e => (parseJsDate e.date).isSome) = some false := by
  simp [normalizeEntry, h1, h2, h3, isBoolVal, jsTruthy, parseJsDate]

/-- Witness for the C10 theorem. -/
theorem normalizeEntry_no_date_field_witness :
    (isValidDateKey rawObjNoDate.dateKey = true ∧ rawObjNoDate.date = JSVal.undef ∧
     rawObjNoDate.isSick = JSVal.bool true) ∧
    ((normalizeEntry (.obj rawObjNoDate)).map (fun e => e.date) = some JSVal.undef ∧
     (normalizeEntry (.obj rawObjNoDate)).map
       (fun e => (parseJsDate e.date).isSome) = some false) :=
  ⟨⟨by decide, by decide, by decide⟩,
    normalizeEntry_no_date_field rawObjNoDate true (by decide) (by decide) (by decide)⟩

/-! ## Create-versus-update detection -/

theorem entryMapFold_some (yy : Nat) (k : String) :
    ∀ (l : List Entry) (acc : Option Entry) (e : Entry),
      l.foldl (fun acc e =>
        if inSelectedYear yy e && e.dateKey == k then some e else acc) acc = some e →
      acc = some e ∨ (e ∈ l ∧ inSelectedYear yy e = true ∧ e.dateKey = k) := by
  intro l
  induction l with
  | nil =>
    intro acc e h
    exact Or.inl h
  | cons a t ih =>
    intro acc e h
    rw [List.foldl_cons] at h
    rcases ih _ e h with hacc | hmem
    · by_cases hp : (inSelectedYear yy a && (a.dateKey == k)) = true
      · rw [if_pos hp] at hacc
        have ha := Option.some.inj hacc
        subst ha
        simp only [Bool.and_eq_true, beq_iff_eq] at hp
        exact Or.inr ⟨by simp, hp.1, hp.2⟩
      · rw [if_neg hp] at hacc
        exact Or.inl hacc
    · exact Or.inr ⟨List.mem_cons_of_mem a hmem.1, hmem.2⟩

theorem entryMapFold_isSome (yy : Nat) (k : String) :
    ∀ (l : List Entry) (acc : Option Entry),
      ((l.foldl (fun acc e =>
          if inSelectedYear yy e && e.dateKey == k then some e else acc) acc).isSome = true) ↔
      (acc.isSome = true ∨ ∃ e ∈ l, inSelectedYear yy e = true ∧ e.dateKey = k) := by
  intro l
  induction l with
  | nil =>
    intro acc
    simp
  | cons a t ih =>
    intro acc
    rw [List.foldl_cons, ih]
    by_cases hp : (inSelectedYear yy a && (a.dateKey == k)) = true
    · rw [if_pos hp]
      simp only [Bool.and_eq_true, beq_iff_eq] at hp
      constructor
      · intro _
        exact Or.inr ⟨a, by simp, hp.1, hp.2⟩
      · intro _
        exact Or.inl rfl
    · rw [if_neg hp]
      constructor
      · rintro (hacc | ⟨e, he, h1, h2⟩)
        · exact Or.inl hacc
        · exact Or.inr ⟨e, List.mem_cons_of_mem a he, h1, h2⟩
      · rintro (hacc | ⟨e, he, h1, h2⟩)
        · exact Or.inl hacc
        · rcases List.mem_cons.mp he with rfl | hemem
          · exact absurd (by simp [h1, h2]) hp
          · exact Or.inr ⟨e, hemem, h1, h2⟩

theorem entryMapLookup_isSome_iff (entries : List Entry) (yy : Nat) (k : String) :
    (entryMapLookup entries yy k).isSome = true ↔
      ∃ e ∈ entries, inSelectedYear yy e = true ∧ e.dateKey = k := by
  unfold entryMapLookup
  rw [entryMapFold_isSome yy k entries none]
  simp

theorem entryMapLookup_some_spec (entries : List Entry) (yy : Nat) (k : String) (e : Entry)
    (h : entryMapLookup entries yy k = some e) :
    e ∈ entries ∧ inSelectedYear yy e = true ∧ e.dateKey = k := by
  unfold entryMapLookup at h
  rcases entryMapFold_some yy k entries none e h with habs | hok
  · exact absurd habs (by simp)
  · exact hok

/-- C4.  A submit is routed to the update-confirmation modal exactly when the
Year Collection holds an entry with the candidate's date key whose key lies
in the selected year; the entry shown is such an entry; and with no same-year
entry under that key the save is committed immediately. -/
theorem onSubmit_update_iff (formDate : Nat) (isSick : Bool) (sev : JSVal)
    (entries : List Entry) (selectedYear : Nat) :
    ((∃ ex p k, onSubmitModel formDate isSick sev entries selectedYear = .confirm ex p k) ↔
       (∃ e ∈ entries, inSelectedYear selectedYear e = true ∧
          e.dateKey = toDateKey formDate)) ∧
    (∀ ex p k, onSubmitModel formDate isSick sev entries selectedYear = .confirm ex p k →
       ex ∈ entries ∧ inSelectedYear selectedYear ex = true ∧
       ex.dateKey = toDateKey formDate ∧ k = toDateKey formDate) ∧
    ((¬ ∃ e ∈ entries, inSelectedYear selectedYear e = true ∧
        e.dateKey = toDateKey formDate) →
       onSubmitModel formDate isSick sev entries selectedYear =
         .save { date := toISOStringOfDay (parseDateFromKey (toDateKey formDate)),
                 isSick := isSick,
                 severity := if isSick then jsToNumber sev else JSVal.null }) := by
  unfold onSubmitModel
  cases hl : entryMapLookup entries selectedYear (toDateKey formDate) with
  | none =>
    simp only [hl]
    refine ⟨⟨?_, ?_⟩, ?_, ?_⟩
    · rintro ⟨ex, p, k, hc⟩
      simp at hc
    · intro hex
      have := (entryMapLookup_isSome_iff entries selectedYear (toDateKey formDate)).mpr hex
      rw [hl] at this
      simp at this
    · intro ex p k hc
      simp at hc
    · intro _
      trivial
  | some ex0 =>
    simp only [hl]
    have hspec := entryMapLookup_some_spec entries selectedYear (toDateKey formDate) ex0 hl
    refine ⟨⟨?_, ?_⟩, ?_, ?_⟩
    · intro _
      exact ⟨ex0, hspec.1, hspec.2.1, hspec.2.2⟩
    · intro _
      exact ⟨ex0, _, _, rfl⟩
    · intro ex p k hc
      simp only [SubmitResult.confirm.injEq] at hc
      obtain ⟨hex, _, hk⟩ := hc
      subst hex
      subst hk
      exact ⟨hspec.1, hspec.2.1, hspec.2.2, rfl⟩
    · intro hnone
      exact absurd ⟨ex0, hspec.1, hspec.2.1, hspec.2.2⟩ hnone

/-- Witness for the C4 theorem: submitting January 1 2024 with that day
already in the collection for 2024. -/
theorem onSubmit_update_iff_witness :
    ((∃ ex p k, onSubmitModel (daysBeforeYear 2024) false (JSVal.num 1) [entryJan2024] 2024
        = .confirm ex p k) ↔
       (∃ e ∈ [entryJan2024], inSelectedYear 2024 e = true ∧
          e.dateKey = toDateKey (daysBeforeYear 2024))) ∧
    (∀ ex p k, onSubmitModel (daysBeforeYear 2024) false (JSVal.num 1) [entryJan2024] 2024
        = .confirm ex p k →
       ex ∈ [entryJan2024] ∧ inSelectedYear 2024 ex = true ∧
       ex.dateKey = toDateKey (daysBeforeYear 2024) ∧ k = toDateKey (daysBeforeYear 2024)) ∧
    ((¬ ∃ e ∈ [entryJan2024], inSelectedYear 2024 e = true ∧
        e.dateKey = toDateKey (daysBeforeYear 2024)) →
       onSubmitModel (daysBeforeYear 2024) false (JSVal.num 1) [entryJan2024] 2024 =
         .save { date := toISOStringOfDay (parseDateFromKey (toDateKey (daysBeforeYear 2024))),
                 isSick := false,
                 severity := if false then jsToNumber (JSVal.num 1) else JSVal.null }) :=
  onSubmit_update_iff (daysBeforeYear 2024) false (JSVal.num 1) [entryJan2024] 2024

/-! ## Merge and transport failure -/

/-- C3.  When `commitSave`'s round trip succeeds with a normalizable entry,
the merged Year Collection holds exactly one entry with the saved date key,
is sorted ascending by the entries' date instants, and no error is surfaced.
The date hypotheses say every date involved parses to an instant, which the
data model guarantees for server entries. -/
theorem commitSave_merge_spec (prev : List Entry) (raw : RawVal) (saved : Entry)
    (hnorm : normalizeEntry raw = some saved)
    (hs : (parseJsDate saved.date).isSome = true)
    (hp : ∀ e ∈ prev, (parseJsDate e.date).isSome = true) :
    (commitSaveModel prev (.ok raw)).1.countP (fun e => e.dateKey == saved.dateKey) = 1 ∧
    (commitSaveModel prev (.ok raw)).1.Pairwise
      (fun a b => (parseJsDate a.date).getD 0 ≤ (parseJsDate b.date).getD 0) ∧
    (commitSaveModel prev (.ok raw)).2 = none := by
  simp only [commitSaveModel, hnorm]
  refine ⟨?_, ?_, trivial⟩
  · unfold mergeEntry
    rw [(List.perm_insertionSort entryLe
      ((prev.filter (fun e => e.dateKey != saved.dateKey)) ++ [saved])).countP_eq]
    rw [List.countP_append]
    have h0 : (prev.filter (fun e => e.dateKey != saved.dateKey)).countP
        (fun e => e.dateKey == saved.dateKey) = 0 := by
      refine List.countP_eq_zero.mpr ?_
      intro a ha
      have hne := (List.mem_filter.mp ha).2
      simp only [bne_iff_ne, ne_eq] at hne
      simp [hne]
    rw [h0]
    simp
  · unfold mergeEntry
    have hsort := List.sorted_insertionSort entryLe
      ((prev.filter (fun e => e.dateKey != saved.dateKey)) ++ [saved])
    refine List.Pairwise.imp_of_mem ?_ hsort
    intro a b ha hb hr
    have hmem : ∀ x : Entry,
        x ∈ List.insertionSort entryLe
          ((prev.filter (fun e => e.dateKey != saved.dateKey)) ++ [saved]) →
        (parseJsDate x.date).isSome = true := by
      intro x hx
      rw [List.mem_insertionSort] at hx
      rcases List.mem_append.mp hx with hx1 | hx2
      · exact hp x (List.mem_filter.mp hx1).1
      · have : x = saved := by simpa using hx2
        subst this
        exact hs
    obtain ⟨xa, hxa⟩ := Option.isSome_iff_exists.mp (hmem a ha)
    obtain ⟨xb, hxb⟩ := Option.isSome_iff_exists.mp (hmem b hb)
    unfold entryLe entryLeb entryTime at hr
    rw [hxa, hxb] at hr
    simp only [decide_eq_true_eq] at hr
    rw [hxa, hxb]
    simpa using hr

/-- Witness for the C3 theorem: saving Jan 2 into a collection holding Jan 5. -/
theorem commitSave_merge_spec_witness :
    (normalizeEntry rawObjK2 = some entryK2 ∧
     (parseJsDate entryK2.date).isSome = true ∧
     (∀ e ∈ [entryK5], (parseJsDate e.date).isSome = true)) ∧
    ((commitSaveModel [entryK5] (.ok rawObjK2)).1.countP
        (fun e => e.dateKey == entryK2.dateKey) = 1 ∧
     (commitSaveModel [entryK5] (.ok rawObjK2)).1.Pairwise
        (fun a b => (parseJsDate a.date).getD 0 ≤ (parseJsDate b.date).getD 0) ∧
     (commitSaveModel [entryK5] (.ok rawObjK2)).2 = none) :=
  ⟨⟨by decide, by decide, by decide⟩,
    commitSave_merge_spec [entryK5] rawObjK2 entryK2 (by decide) (by decide) (by decide)⟩

/-- C9.  A failed save leaves the Year Collection exactly as it was and
surfaces an error (also when the response entry fails normalization, which
throws before any merge); a failed fetch resets the collection to empty and
surfaces an error.  Neither path retries: the models are plain functions of
one outcome. -/
theorem transport_failure_state (prev : List Entry) (msg : String) (raw : RawVal)
    (hraw : normalizeEntry raw = none) :
    commitSaveModel prev (.fail msg)
      = (prev, some (if msg == "" then "Failed to save entry" else msg)) ∧
    commitSaveModel prev (.ok raw) = (prev, some "Invalid entry returned by server.") ∧
    fetchEffectModel (.error msg)
      = ([], some (if msg == "" then "Failed to load entries" else msg)) := by
  refine ⟨rfl, ?_, rfl⟩
  simp [commitSaveModel, hraw]

/-- Witness for the C9 theorem. -/
theorem transport_failure_state_witness :
    normalizeEntry (.prim JSVal.null) = none ∧
    (commitSaveModel [entryK5] (.fail "boom")
       = ([entryK5], some (if "boom" == "" then "Failed to save entry" else "boom")) ∧
     commitSaveModel [entryK5] (.ok (.prim JSVal.null))
       = ([entryK5], some "Invalid entry returned by server.") ∧
     fetchEffectModel (.error "boom")
       = ([], some (if "boom" == "" then "Failed to load entries" else "boom"))) :=
  ⟨by decide, transport_failure_state [entryK5] "boom" (.prim JSVal.null) (by decide)⟩
